import Mathlib

/-!
# Verification of the UUID string parser

This development embeds the string-parsing core of the `uuid` crate
(`Uuid::parse_str` and its `FromStr` / `TryFrom<&str>` delegations from
`src/parser.rs`) and proves the specified properties about it.

The crate's `src/parser.rs` pulls the scanning algorithm in from a shared
module (`#[path = "../shared/parser.rs"] mod imp;`) whose source is not part
of the available tree; only its public wrapper, the delegating conversions and
an extensive test suite are.  The scanner below is therefore modelled from the
specification (wrapper stripping, length gate, interleaved group/character
scanning, hex decoding) with every behavioural choice pinned by the literal
input/output pairs asserted in the crate's own test suite
(`test_parse_uuid_v4_valid`, `test_parse_uuid_v4_invalid`, the round-trip
tests), which the specification designates as the authoritative contract.
Each pinned test assertion is reproduced as an `example` below.

The input is modelled as a sequence of characters (spec §3: "an immutable
sequence of characters"); positions and lengths count characters.
-/

namespace UuidSpec

/-- The Rust `ExpectedLength` value carried by diagnostics: either a single
exact length or a small set of acceptable lengths. -/
inductive ExpectedLength where
  | Exact : Nat → ExpectedLength
  | Any : List Nat → ExpectedLength
deriving DecidableEq, Repr

/-- Modelled from the spec: the URN-context flag attached to character-class
diagnostics (spec §4.4: "whether a URN prefix was optional/required"); the
crate's `error.rs` is not in the tree, the test suite uses only
`UrnPrefix::Optional`.  Named `UrnPrefixFlag` here. -/
inductive UrnPrefixFlag where
  | Optional : UrnPrefixFlag
  | Required : UrnPrefixFlag
deriving DecidableEq, Repr

/-- The closed taxonomy of parse diagnostics (Rust `ErrorKind`, spec §7). -/
inductive ErrorKind where
  | InvalidCharacter : String → Char → Nat → UrnPrefixFlag → ErrorKind
  | InvalidGroupCount : ExpectedLength → Nat → ErrorKind
  | InvalidGroupLength : ExpectedLength → Nat → Nat → ErrorKind
  | InvalidLength : ExpectedLength → Nat → ErrorKind
deriving DecidableEq, Repr

/-- The Rust `Error(ErrorKind)` newtype. -/
structure Error where
  kind : ErrorKind
deriving DecidableEq, Repr

/-- `fmt::Simple::LENGTH`: length of the contiguous 32-hex-digit form. -/
def simpleLength : Nat := 32

/-- `fmt::Hyphenated::LENGTH`: length of the hyphen-grouped form. -/
def hyphenatedLength : Nat := 36

/-- The accepted alphabet string carried by `InvalidCharacter` diagnostics. -/
def expectedChars : String := "0123456789abcdefABCDEF-"

/-- The characters of the case-sensitive literal URN prefix `urn:uuid:`. -/
def urnPrefixStr : List Char := ['u', 'r', 'n', ':', 'u', 'u', 'i', 'd', ':']

/-- Accumulated digit count at the end of each hyphenated group. -/
def accGroupLens : List Nat := [8, 12, 16, 20, 32]

/-- Required digit count of each hyphenated group. -/
def groupLens : List Nat := [8, 4, 4, 4, 12]

/-- Modelled from the spec: value of a hex digit character (`0-9a-fA-F`,
case-insensitive, spec §4.4), `none` for anything outside the alphabet. -/
def hexVal (c : Char) : Option Nat :=
  if 48 ≤ c.toNat ∧ c.toNat ≤ 57 then some (c.toNat - 48)
  else if 97 ≤ c.toNat ∧ c.toNat ≤ 102 then some (c.toNat - 97 + 10)
  else if 65 ≤ c.toNat ∧ c.toNat ≤ 70 then some (c.toNat - 65 + 10)
  else none

/-- The `found` payload of a group-length diagnostic: the number of digits
consumed in the current group (total digit count minus the accumulated
length of the preceding groups). -/
def groupFound (digit group : Nat) : Nat :=
  if group = 0 then digit else digit - accGroupLens.getD (group - 1) 0

/-- Modelled from the spec: the interleaved scanning loop (spec §4.3-§4.4).
`len` is the stripped length reported by in-scan length diagnostics, `i` the
position in the original input (it starts at the wrapper offset so character
diagnostics index the original, un-stripped input, spec §4.4), `digit` the
count of hex digits consumed so far, `group` the count of completed groups,
`acc` the partially assembled byte and `buffer` the 16-byte output.
Behaviour on every malformed shape follows the crate's pinned test suite:
once 32 digits have been consumed with fewer than four separators, a further
character yields `InvalidLength` (no separator seen at all) or
`InvalidGroupCount`; a separator at the wrong accumulated digit count yields
`InvalidGroupLength`; a character outside the alphabet yields
`InvalidCharacter` immediately. -/
def scan (len : Nat) : List Char → Nat → Nat → Nat → Nat → List Nat →
    Except Error (List Nat)
  | [], _, digit, group, _, buffer =>
    if digit ≠ 32 then
      .error ⟨.InvalidGroupLength (.Exact (groupLens.getD group 0))
        (groupFound digit group) group⟩
    else
      .ok buffer
  | c :: rest, i, digit, group, acc, buffer =>
    if 32 ≤ digit ∧ group ≠ 4 then
      if group = 0 then
        .error ⟨.InvalidLength (.Any [hyphenatedLength, simpleLength]) len⟩
      else
        .error ⟨.InvalidGroupCount (.Any [1, 5]) (group + 1)⟩
    else if digit % 2 = 0 then
      if c = '-' then
        if accGroupLens.getD group 0 ≠ digit then
          .error ⟨.InvalidGroupLength (.Exact (groupLens.getD group 0))
            (groupFound digit group) group⟩
        else
          scan len rest (i + 1) digit (group + 1) acc buffer
      else
        match hexVal c with
        | some v => scan len rest (i + 1) (digit + 1) group v buffer
        | none => .error ⟨.InvalidCharacter expectedChars c i .Optional⟩
    else
      if c = '-' then
        .error ⟨.InvalidGroupLength (.Exact (groupLens.getD group 0))
          (groupFound digit group) group⟩
      else
        match hexVal c with
        | some v =>
          scan len rest (i + 1) (digit + 1) group (acc * 16 + v)
            (buffer.set (digit / 2) (acc * 16 + v))
        | none => .error ⟨.InvalidCharacter expectedChars c i .Optional⟩

/-- Modelled from the spec: wrapper stripping (spec §4.1).  The URN prefix and
the brace pair are mutually exclusive alternatives tried in that order.  The
second component is the offset of the stripped content within the original
input, carried forward so character diagnostics index the original input.
Braces are recognised only at total length `hyphenatedLength + 2`: the test
suite pins that a brace-wrapped 32-digit input is NOT unwrapped (it fails with
`InvalidLength \x7b found: 34 \x7d`) while the brace-wrapped hyphenated form
round-trips. -/
def stripWrapper (input : List Char) : List Char × Nat :=
  if urnPrefixStr.isPrefixOf input then
    (input.drop 9, 9)
  else if input.length = hyphenatedLength + 2 ∧ input.head? = some '\x7b' ∧
      input.getLast? = some '\x7d' then
    ((input.drop 1).dropLast, 1)
  else
    (input, 0)

namespace Imp

/-- Modelled from the spec: the parsing core `imp::parse_str`
(`shared/parser.rs`, pulled in by `src/parser.rs` but not in the tree):
wrapper stripping, then the length gate (spec §4.2: any stripped length other
than 36 or 32 is rejected before any character inspection, reporting the
stripped length), then the interleaved scan producing the 16-byte array. -/
def parse_str (input : List Char) : Except Error (List Nat) :=
  if (stripWrapper input).1.length ≠ hyphenatedLength ∧
      (stripWrapper input).1.length ≠ simpleLength then
    .error ⟨.InvalidLength (.Any [hyphenatedLength, simpleLength])
      (stripWrapper input).1.length⟩
  else
    scan (stripWrapper input).1.length (stripWrapper input).1
      (stripWrapper input).2 0 0 0 (List.replicate 16 0)

end Imp

/-- The identifier value: 16 bytes (`Uuid`). -/
structure Uuid where
  bytes : List Nat
deriving DecidableEq, Repr

/-- `Uuid::from_bytes`: build the identifier from raw bytes (infallible). -/
def Uuid.from_bytes (b : List Nat) : Uuid := ⟨b⟩

/-- `Uuid::parse_str` (src/parser.rs lines 62-64): delegate to the core and
wrap the 16 bytes into a `Uuid`. -/
def Uuid.parse_str (input : String) : Except Error Uuid :=
  (Imp.parse_str input.data).map Uuid.from_bytes

/-- `impl FromStr for Uuid` (src/parser.rs lines 25-31): delegates to
`Uuid::parse_str`. -/
def Uuid.from_str (input : String) : Except Error Uuid :=
  Uuid.parse_str input

/-- `impl TryFrom<&str> for Uuid` (src/parser.rs lines 33-39): delegates to
`Uuid::parse_str`. -/
def Uuid.try_from (input : String) : Except Error Uuid :=
  Uuid.parse_str input

/-- Modelled from the spec: the lowercase hex digit character for a nibble
(the formatting collaborator is out of tree; spec §4.4, glossary). -/
def hexDigitChar (n : Nat) : Char :=
  if n < 10 then Char.ofNat (48 + n) else Char.ofNat (87 + n)

/-- Modelled from the spec: two hex digit characters of a byte, first digit
is the high nibble (spec §3). -/
def byteHex (b : Nat) : List Char := [hexDigitChar (b / 16), hexDigitChar (b % 16)]

/-- Modelled from the spec: the simple (contiguous) rendering of a byte
sequence, glossary "32 contiguous hexadecimal digits, no separators". -/
def simpleChars : List Nat → List Char
  | [] => []
  | b :: bs => byteHex b ++ simpleChars bs

/-- Modelled from the spec: the hyphenated rendering, glossary "five hex
groups of lengths 8-4-4-4-12 joined by hyphens". -/
def hyphenatedChars (bytes : List Nat) : List Char :=
  simpleChars (bytes.take 4) ++
    '-' :: simpleChars ((bytes.drop 4).take 2) ++
    '-' :: simpleChars ((bytes.drop 6).take 2) ++
    '-' :: simpleChars ((bytes.drop 8).take 2) ++
    '-' :: simpleChars (bytes.drop 10)

/-- Modelled from the spec: `to_simple().to_string()`. -/
def Uuid.to_simple (u : Uuid) : String := ⟨simpleChars u.bytes⟩

/-- Modelled from the spec: `to_hyphenated().to_string()` (also the default
`to_string()` rendering). -/
def Uuid.to_hyphenated (u : Uuid) : String := ⟨hyphenatedChars u.bytes⟩

/-- Modelled from the spec: `to_urn().to_string()`, glossary "hyphenated form
prefixed with `urn:uuid:`". -/
def Uuid.to_urn (u : Uuid) : String := ⟨urnPrefixStr ++ hyphenatedChars u.bytes⟩

/-- Modelled from the spec: `to_braced().to_string()`, the hyphenated form
enclosed in braces (the rendering exercised by `test_roundtrip_braced`). -/
def Uuid.to_braced (u : Uuid) : String :=
  ⟨'\x7b' :: (hyphenatedChars u.bytes ++ ['\x7d'])⟩

instance : DecidableEq (Except Error (List Nat)) := fun a b =>
  match a, b with
  | .ok x, .ok y => if h : x = y then .isTrue (by rw [h]) else
      .isFalse (fun hc => h (by cases hc; rfl))
  | .error x, .error y => if h : x = y then .isTrue (by rw [h]) else
      .isFalse (fun hc => h (by cases hc; rfl))
  | .ok _, .error _ => .isFalse (by intro hc; cases hc)
  | .error _, .ok _ => .isFalse (by intro hc; cases hc)

instance : DecidableEq (Except Error Uuid) := fun a b =>
  match a, b with
  | .ok x, .ok y => if h : x = y then .isTrue (by rw [h]) else
      .isFalse (fun hc => h (by cases hc; rfl))
  | .error x, .error y => if h : x = y then .isTrue (by rw [h]) else
      .isFalse (fun hc => h (by cases hc; rfl))
  | .ok _, .error _ => .isFalse (by intro hc; cases hc)
  | .error _, .ok _ => .isFalse (by intro hc; cases hc)

end UuidSpec

namespace UuidSpec

/-! ## Basic facts about hex digits -/

theorem hexVal_hexDigitChar : ∀ n : Nat, n < 16 → hexVal (hexDigitChar n) = some n := by
  decide

theorem hexDigitChar_ne_dash : ∀ n : Nat, n < 16 → hexDigitChar n ≠ '-' := by
  decide

theorem hexVal_lt {c : Char} {v : Nat} (h : hexVal c = some v) : v < 16 := by
  unfold hexVal at h
  split at h
  · injection h with h1; omega
  · split at h
    · injection h with h1; omega
    · split at h
      · injection h with h1; omega
      · exact absurd h (by simp)

theorem hexVal_isSome_ne_dash {c : Char} (h : (hexVal c).isSome) : c ≠ '-' := by
  intro hc
  rw [hc] at h
  exact absurd h (by decide)

theorem hexVal_isSome_ne_u {c : Char} (h : (hexVal c).isSome) : c ≠ 'u' := by
  intro hc
  rw [hc] at h
  exact absurd h (by decide)

theorem isPrefixOf_urn_false {c : Char} (l : List Char) (h : c ≠ 'u') :
    urnPrefixStr.isPrefixOf (c :: l) = false := by
  simp only [urnPrefixStr, List.isPrefixOf, Bool.and_eq_false_iff, beq_eq_false_iff_ne, ne_eq]
  exact Or.inl (fun hc => h hc.symm)

/-! ## Stepping lemmas for the scanner -/

theorem scan_hex_even {c : Char} {v : Nat} (len i digit group acc : Nat)
    (buf : List Nat) (rest : List Char) (hv : hexVal c = some v)
    (he : digit % 2 = 0) (hd : digit < 32) :
    scan len (c :: rest) i digit group acc buf =
      scan len rest (i + 1) (digit + 1) group v buf := by
  have hc : c ≠ '-' := hexVal_isSome_ne_dash (by rw [hv]; rfl)
  rw [scan, if_neg (fun hh => absurd hh.1 (by omega)), if_pos he, if_neg hc, hv]

theorem scan_hex_odd {c : Char} {v : Nat} (len i digit group acc : Nat)
    (buf : List Nat) (rest : List Char) (hv : hexVal c = some v)
    (he : digit % 2 = 1) (hd : digit < 32) :
    scan len (c :: rest) i digit group acc buf =
      scan len rest (i + 1) (digit + 1) group (acc * 16 + v)
        (buf.set (digit / 2) (acc * 16 + v)) := by
  have hc : c ≠ '-' := hexVal_isSome_ne_dash (by rw [hv]; rfl)
  rw [scan, if_neg (fun hh => absurd hh.1 (by omega)), if_neg (by omega), if_neg hc, hv]

theorem scan_dash_ok (len i digit group acc : Nat) (buf : List Nat)
    (rest : List Char) (he : digit % 2 = 0) (hd : digit < 32)
    (ha : accGroupLens.getD group 0 = digit) :
    scan len ('-' :: rest) i digit group acc buf =
      scan len rest (i + 1) digit (group + 1) acc buf := by
  rw [scan, if_neg (fun hh => absurd hh.1 (by omega)), if_pos he, if_pos rfl,
    if_neg (by omega)]

theorem scan_byte (len i digit group acc : Nat) (buf : List Nat) (v : Nat)
    (rest : List Char) (hv : v < 256) (he : digit % 2 = 0) (hd : digit + 2 ≤ 32) :
    scan len (byteHex v ++ rest) i digit group acc buf =
      scan len rest (i + 2) (digit + 2) group v (buf.set (digit / 2) v) := by
  have h1 : v / 16 < 16 := by omega
  have h2 : v % 16 < 16 := by omega
  show scan len (hexDigitChar (v / 16) :: hexDigitChar (v % 16) :: rest)
      i digit group acc buf = _
  have s1 := scan_hex_even len i digit group acc buf
    (hexDigitChar (v % 16) :: rest) (hexVal_hexDigitChar _ h1) he (by omega)
  rw [s1]
  have s2 := scan_hex_odd len (i + 1) (digit + 1) group (v / 16) buf rest
    (hexVal_hexDigitChar _ h2) (by omega) (by omega)
  rw [s2]
  have e1 : v / 16 * 16 + v % 16 = v := by omega
  have e2 : (digit + 1) / 2 = digit / 2 := by omega
  rw [e1, e2]

end UuidSpec

namespace UuidSpec

/-- Successive in-place writes of a byte sequence, as performed by the hex
decoder: `writeBytes buf k bs` writes the bytes of `bs` at positions
`k, k+1, ...` of `buf`. -/
def writeBytes (buf : List Nat) (k : Nat) : List Nat → List Nat
  | [] => buf
  | b :: bs => writeBytes (buf.set k b) (k + 1) bs

theorem scan_simpleChars (bs : List Nat) : ∀ (len i digit group acc : Nat)
    (buf : List Nat) (rest : List Char), (∀ b ∈ bs, b < 256) →
    digit % 2 = 0 → digit + 2 * bs.length ≤ 32 →
    ∃ acc2, scan len (simpleChars bs ++ rest) i digit group acc buf =
      scan len rest (i + 2 * bs.length) (digit + 2 * bs.length) group acc2
        (writeBytes buf (digit / 2) bs) := by
  induction bs with
  | nil =>
    intro len i digit group acc buf rest _ _ _
    exact ⟨acc, by simp [simpleChars, writeBytes]⟩
  | cons b bs ih =>
    intro len i digit group acc buf rest hlt he hbound
    have hb : b < 256 := hlt b (by simp)
    have hlen : (b :: bs).length = bs.length + 1 := rfl
    rw [hlen] at hbound
    show ∃ acc2, scan len ((byteHex b ++ simpleChars bs) ++ rest) i digit group acc buf = _
    rw [List.append_assoc]
    rw [scan_byte len i digit group acc buf b _ hb he (by omega)]
    obtain ⟨acc2, h2⟩ := ih len (i + 2) (digit + 2) group b (buf.set (digit / 2) b)
      rest (fun x hx => hlt x (by simp [hx])) (by omega) (by omega)
    refine ⟨acc2, ?_⟩
    rw [h2]
    have e1 : i + 2 + 2 * bs.length = i + 2 * (b :: bs).length := by
      rw [hlen]; ring
    have e2 : digit + 2 + 2 * bs.length = digit + 2 * (b :: bs).length := by
      rw [hlen]; ring
    have e3 : writeBytes (buf.set (digit / 2) b) ((digit + 2) / 2) bs =
        writeBytes buf (digit / 2) (b :: bs) := by
      show _ = writeBytes (buf.set (digit / 2) b) (digit / 2 + 1) bs
      have : (digit + 2) / 2 = digit / 2 + 1 := by omega
      rw [this]
    rw [e1, e2, e3]

/-- Scanning any run of hex-alphabet characters steps the position and the
digit count by the run length while staying in the same group, as long as the
32-digit budget is not exhausted. -/
theorem scan_hexRun (cs : List Char) : ∀ (len i digit group acc : Nat)
    (buf : List Nat) (rest : List Char), (∀ c ∈ cs, (hexVal c).isSome) →
    digit + cs.length ≤ 32 →
    ∃ acc2 buf2, scan len (cs ++ rest) i digit group acc buf =
      scan len rest (i + cs.length) (digit + cs.length) group acc2 buf2 := by
  induction cs with
  | nil =>
    intro len i digit group acc buf rest _ _
    exact ⟨acc, buf, by simp⟩
  | cons c cs ih =>
    intro len i digit group acc buf rest hhex hbound
    obtain ⟨v, hv⟩ := Option.isSome_iff_exists.mp (hhex c (by simp))
    have hlen : (c :: cs).length = cs.length + 1 := rfl
    rw [hlen] at hbound
    have hstep : ∃ acc1 buf1, scan len (c :: (cs ++ rest)) i digit group acc buf =
        scan len (cs ++ rest) (i + 1) (digit + 1) group acc1 buf1 := by
      rcases Nat.mod_two_eq_zero_or_one digit with he | he
      · exact ⟨v, buf, scan_hex_even len i digit group acc buf _ hv he (by omega)⟩
      · exact ⟨acc * 16 + v, buf.set (digit / 2) (acc * 16 + v),
          scan_hex_odd len i digit group acc buf _ hv he (by omega)⟩
    obtain ⟨acc1, buf1, h1⟩ := hstep
    obtain ⟨acc2, buf2, h2⟩ := ih len (i + 1) (digit + 1) group acc1 buf1 rest
      (fun x hx => hhex x (by simp [hx])) (by omega)
    refine ⟨acc2, buf2, ?_⟩
    show scan len (c :: (cs ++ rest)) i digit group acc buf = _
    rw [h1, h2, hlen]
    have e1 : i + 1 + cs.length = i + (cs.length + 1) := by omega
    have e2 : digit + 1 + cs.length = digit + (cs.length + 1) := by omega
    rw [e1, e2]

/-- Once 32 digits have been consumed with no separator seen, any further
character is reported as a length error carrying the stripped length. -/
theorem scan_stop_group0 (len i acc : Nat) (buf : List Nat) (c : Char)
    (cs : List Char) :
    scan len (c :: cs) i 32 0 acc buf =
      .error ⟨.InvalidLength (.Any [hyphenatedLength, simpleLength]) len⟩ := by
  rw [scan, if_pos ⟨le_refl 32, by omega⟩, if_pos rfl]

/-- Once 32 digits have been consumed with one to three separators seen, any
further character is reported as a group-count error. -/
theorem scan_stop_groupCount (len i group acc : Nat) (buf : List Nat)
    (c : Char) (cs : List Char) (h0 : group ≠ 0) (h4 : group ≠ 4) :
    scan len (c :: cs) i 32 group acc buf =
      .error ⟨.InvalidGroupCount (.Any [1, 5]) (group + 1)⟩ := by
  rw [scan, if_pos ⟨le_refl 32, h4⟩, if_neg h0]

end UuidSpec

namespace UuidSpec

/-- Whenever the scanner succeeds, the produced byte array has the length of
its initial buffer preserved and every entry below 256 (each byte is built
from exactly two hex digits). -/
theorem scan_ok_shape (cs : List Char) : ∀ (len i digit group acc : Nat)
    (buf out : List Nat), (digit % 2 = 1 → acc < 16) →
    (∀ b ∈ buf, b < 256) → scan len cs i digit group acc buf = .ok out →
    out.length = buf.length ∧ ∀ b ∈ out, b < 256 := by
  induction cs with
  | nil =>
    intro len i digit group acc buf out _ hbnd h
    rw [scan] at h
    split at h
    · exact absurd h (by simp)
    · cases h
      exact ⟨rfl, hbnd⟩
  | cons c cs ih =>
    intro len i digit group acc buf out hacc hbnd h
    rw [scan] at h
    split at h
    · split at h <;> exact absurd h (by simp)
    next hstop =>
      split at h
      next heven =>
        split at h
        · split at h
          · exact absurd h (by simp)
          · exact ih _ _ _ _ _ _ _ (fun ho => by omega) hbnd h
        · split at h
          next v hv =>
            have := ih _ _ _ _ _ _ _ (fun _ => hexVal_lt hv) hbnd h
            exact this
          next => exact absurd h (by simp)
      next hodd =>
        split at h
        · exact absurd h (by simp)
        · split at h
          next v hv =>
            have hlt : acc * 16 + v < 256 := by
              have h1 : acc < 16 := hacc (by omega)
              have h2 : v < 16 := hexVal_lt hv
              omega
            have hbnd2 : ∀ b ∈ buf.set (digit / 2) (acc * 16 + v), b < 256 := by
              intro b hb
              rcases List.mem_or_eq_of_mem_set hb with hmem | heq
              · exact hbnd b hmem
              · omega
            have := ih _ _ _ _ _ _ _ (fun ho => by omega) hbnd2 h
            simpa using this
          next => exact absurd h (by simp)

/-- Every character-class diagnostic the scanner produces carries the
`Optional` URN-context flag: the scanner constructs no other flag value. -/
theorem scan_urnFlag (cs : List Char) : ∀ (len i digit group acc : Nat)
    (buf : List Nat) (e : String) (c0 : Char) (k : Nat) (u : UrnPrefixFlag),
    scan len cs i digit group acc buf = .error ⟨.InvalidCharacter e c0 k u⟩ →
    u = .Optional := by
  induction cs with
  | nil =>
    intro len i digit group acc buf e c0 k u h
    rw [scan] at h
    split at h <;> simp at h
  | cons c cs ih =>
    intro len i digit group acc buf e c0 k u h
    rw [scan] at h
    split at h
    · split at h <;> simp at h
    · split at h <;> split at h
      · split at h
        · simp at h
        · exact ih _ _ _ _ _ _ _ _ _ _ h
      · split at h
        · exact ih _ _ _ _ _ _ _ _ _ _ h
        · simp at h
          exact h.2.2.2.symm
      · simp at h
      · split at h
        · exact ih _ _ _ _ _ _ _ _ _ _ h
        · simp at h
          exact h.2.2.2.symm

end UuidSpec

namespace UuidSpec

/-! ## Wrapper-stripping lemmas -/

theorem hexDigitChar_ne_u : ∀ n : Nat, n < 16 → hexDigitChar n ≠ 'u' := by
  decide

theorem isPrefixOf_urn_false_head {l : List Char} {c : Char}
    (hh : l.head? = some c) (h : c ≠ 'u') :
    urnPrefixStr.isPrefixOf l = false := by
  cases l with
  | nil => simp at hh
  | cons a t =>
    injection hh with h1
    subst h1
    exact isPrefixOf_urn_false t h

theorem stripWrapper_id {l : List Char}
    (hne : urnPrefixStr.isPrefixOf l = false)
    (hlen : l.length ≠ hyphenatedLength + 2) : stripWrapper l = (l, 0) := by
  simp only [stripWrapper, hne, Bool.false_eq_true, if_false]
  exact if_neg (fun hh => hlen hh.1)

theorem stripWrapper_urn (l : List Char) :
    stripWrapper (urnPrefixStr ++ l) = (l, 9) := by
  have h1 : urnPrefixStr.isPrefixOf (urnPrefixStr ++ l) = true := by
    simp [urnPrefixStr, List.isPrefixOf]
  have h2 : (urnPrefixStr ++ l).drop 9 = l := List.drop_left urnPrefixStr l
  simp only [stripWrapper, h1, if_true, h2]

theorem stripWrapper_braced (l : List Char) (h : l.length = 36) :
    stripWrapper ('\x7b' :: (l ++ ['\x7d'])) = (l, 1) := by
  have h1 : urnPrefixStr.isPrefixOf ('\x7b' :: (l ++ ['\x7d'])) = false :=
    isPrefixOf_urn_false _ (by decide)
  have h2 : ('\x7b' :: (l ++ ['\x7d'])).getLast? = some '\x7d' := by
    rw [← List.cons_append]
    exact List.getLast?_concat _
  have h3 : ('\x7b' :: (l ++ ['\x7d'])).length = hyphenatedLength + 2 := by
    simp [h, hyphenatedLength]
  simp only [stripWrapper, h1, Bool.false_eq_true, if_false]
  rw [if_pos ⟨h3, rfl, h2⟩]
  simp [List.dropLast_concat]

/-! ## Unfolding lemmas for the parsing core -/

theorem Imp_parse_scan {input s : List Char} {off : Nat}
    (hw : stripWrapper input = (s, off))
    (hlen : s.length = 36 ∨ s.length = 32) :
    Imp.parse_str input = scan s.length s off 0 0 0 (List.replicate 16 0) := by
  simp only [Imp.parse_str, hw]
  rcases hlen with h | h
  · rw [if_neg (fun hh => hh.1 h)]
  · rw [if_neg (fun hh => hh.2 h)]

theorem Imp_parse_badLength {input : List Char}
    (h36 : (stripWrapper input).1.length ≠ 36)
    (h32 : (stripWrapper input).1.length ≠ 32) :
    Imp.parse_str input = .error ⟨.InvalidLength (.Any [36, 32])
      (stripWrapper input).1.length⟩ := by
  simp only [Imp.parse_str]
  rw [if_pos ⟨h36, h32⟩]
  simp only [hyphenatedLength, simpleLength]

end UuidSpec

namespace UuidSpec

/-! ## Round-trip machinery -/

theorem scan_done (len i group acc : Nat) (buf : List Nat) :
    scan len [] i 32 group acc buf = .ok buf := by
  rw [scan]
  simp

theorem scan_dash8 (len i acc : Nat) (buf : List Nat) (rest : List Char) :
    scan len ('-' :: rest) i 8 0 acc buf = scan len rest (i + 1) 8 1 acc buf :=
  scan_dash_ok len i 8 0 acc buf rest (by decide) (by decide) (by decide)

theorem scan_dash12 (len i acc : Nat) (buf : List Nat) (rest : List Char) :
    scan len ('-' :: rest) i 12 1 acc buf = scan len rest (i + 1) 12 2 acc buf :=
  scan_dash_ok len i 12 1 acc buf rest (by decide) (by decide) (by decide)

theorem scan_dash16 (len i acc : Nat) (buf : List Nat) (rest : List Char) :
    scan len ('-' :: rest) i 16 2 acc buf = scan len rest (i + 1) 16 3 acc buf :=
  scan_dash_ok len i 16 2 acc buf rest (by decide) (by decide) (by decide)

theorem scan_dash20 (len i acc : Nat) (buf : List Nat) (rest : List Char) :
    scan len ('-' :: rest) i 20 3 acc buf = scan len rest (i + 1) 20 4 acc buf :=
  scan_dash_ok len i 20 3 acc buf rest (by decide) (by decide) (by decide)

theorem scan_byte_last (len i digit group acc : Nat) (buf : List Nat) (v : Nat)
    (hv : v < 256) (he : digit % 2 = 0) (hd : digit + 2 ≤ 32) :
    scan len (byteHex v) i digit group acc buf =
      scan len [] (i + 2) (digit + 2) group v (buf.set (digit / 2) v) := by
  have h := scan_byte len i digit group acc buf v [] hv he hd
  simpa using h

theorem hyphenatedChars_unfold (b0 b1 b2 b3 b4 b5 b6 b7 b8 b9 b10 b11 b12 b13 b14 b15 : Nat) :
    hyphenatedChars [b0, b1, b2, b3, b4, b5, b6, b7, b8, b9, b10, b11, b12, b13, b14, b15] =
      simpleChars [b0, b1, b2, b3] ++
        '-' :: simpleChars [b4, b5] ++
        '-' :: simpleChars [b6, b7] ++
        '-' :: simpleChars [b8, b9] ++
        '-' :: simpleChars [b10, b11, b12, b13, b14, b15] := rfl

theorem scan_simple16 (i b0 b1 b2 b3 b4 b5 b6 b7 b8 b9 b10 b11 b12 b13 b14 b15 : Nat)
    (h0 : b0 < 256) (h1 : b1 < 256) (h2 : b2 < 256) (h3 : b3 < 256)
    (h4 : b4 < 256) (h5 : b5 < 256) (h6 : b6 < 256) (h7 : b7 < 256)
    (h8 : b8 < 256) (h9 : b9 < 256) (h10 : b10 < 256) (h11 : b11 < 256)
    (h12 : b12 < 256) (h13 : b13 < 256) (h14 : b14 < 256) (h15 : b15 < 256) :
    scan 32 (simpleChars [b0, b1, b2, b3, b4, b5, b6, b7, b8, b9, b10,
      b11, b12, b13, b14, b15]) i 0 0 0 (List.replicate 16 0) =
    .ok [b0, b1, b2, b3, b4, b5, b6, b7, b8, b9, b10, b11, b12, b13, b14, b15] := by
  simp only [simpleChars, List.append_assoc, List.cons_append, List.nil_append]
  simp [scan_byte, scan_byte_last, scan_done, h0, h1, h2, h3, h4, h5, h6, h7,
    h8, h9, h10, h11, h12, h13, h14, h15]

theorem scan_hyph16 (i b0 b1 b2 b3 b4 b5 b6 b7 b8 b9 b10 b11 b12 b13 b14 b15 : Nat)
    (h0 : b0 < 256) (h1 : b1 < 256) (h2 : b2 < 256) (h3 : b3 < 256)
    (h4 : b4 < 256) (h5 : b5 < 256) (h6 : b6 < 256) (h7 : b7 < 256)
    (h8 : b8 < 256) (h9 : b9 < 256) (h10 : b10 < 256) (h11 : b11 < 256)
    (h12 : b12 < 256) (h13 : b13 < 256) (h14 : b14 < 256) (h15 : b15 < 256) :
    scan 36 (hyphenatedChars [b0, b1, b2, b3, b4, b5, b6, b7, b8, b9, b10,
      b11, b12, b13, b14, b15]) i 0 0 0 (List.replicate 16 0) =
    .ok [b0, b1, b2, b3, b4, b5, b6, b7, b8, b9, b10, b11, b12, b13, b14, b15] := by
  rw [hyphenatedChars_unfold]
  simp only [simpleChars, List.append_assoc, List.cons_append, List.nil_append]
  simp [scan_byte, scan_byte_last, scan_dash8, scan_dash12, scan_dash16,
    scan_dash20, scan_done, h0, h1, h2, h3, h4, h5, h6, h7, h8, h9, h10,
    h11, h12, h13, h14, h15]

end UuidSpec

namespace UuidSpec

theorem Imp_roundtrip (b0 b1 b2 b3 b4 b5 b6 b7 b8 b9 b10 b11 b12 b13 b14 b15 : Nat)
    (h0 : b0 < 256) (h1 : b1 < 256) (h2 : b2 < 256) (h3 : b3 < 256)
    (h4 : b4 < 256) (h5 : b5 < 256) (h6 : b6 < 256) (h7 : b7 < 256)
    (h8 : b8 < 256) (h9 : b9 < 256) (h10 : b10 < 256) (h11 : b11 < 256)
    (h12 : b12 < 256) (h13 : b13 < 256) (h14 : b14 < 256) (h15 : b15 < 256) :
    Imp.parse_str (simpleChars [b0, b1, b2, b3, b4, b5, b6, b7, b8, b9, b10,
        b11, b12, b13, b14, b15]) =
      .ok [b0, b1, b2, b3, b4, b5, b6, b7, b8, b9, b10, b11, b12, b13, b14, b15] ∧
    Imp.parse_str (hyphenatedChars [b0, b1, b2, b3, b4, b5, b6, b7, b8, b9, b10,
        b11, b12, b13, b14, b15]) =
      .ok [b0, b1, b2, b3, b4, b5, b6, b7, b8, b9, b10, b11, b12, b13, b14, b15] ∧
    Imp.parse_str (urnPrefixStr ++ hyphenatedChars [b0, b1, b2, b3, b4, b5, b6,
        b7, b8, b9, b10, b11, b12, b13, b14, b15]) =
      .ok [b0, b1, b2, b3, b4, b5, b6, b7, b8, b9, b10, b11, b12, b13, b14, b15] ∧
    Imp.parse_str ('\x7b' :: (hyphenatedChars [b0, b1, b2, b3, b4, b5, b6, b7,
        b8, b9, b10, b11, b12, b13, b14, b15] ++ ['\x7d'])) =
      .ok [b0, b1, b2, b3, b4, b5, b6, b7, b8, b9, b10, b11, b12, b13, b14, b15] := by
  have hs_len : (simpleChars [b0, b1, b2, b3, b4, b5, b6, b7, b8, b9, b10,
      b11, b12, b13, b14, b15]).length = 32 := by
    simp [simpleChars, byteHex]
  have hh_len : (hyphenatedChars [b0, b1, b2, b3, b4, b5, b6, b7, b8, b9, b10,
      b11, b12, b13, b14, b15]).length = 36 := by
    rw [hyphenatedChars_unfold]
    simp [simpleChars, byteHex]
  have hs_head : (simpleChars [b0, b1, b2, b3, b4, b5, b6, b7, b8, b9, b10,
      b11, b12, b13, b14, b15]).head? = some (hexDigitChar (b0 / 16)) := rfl
  have hh_head : (hyphenatedChars [b0, b1, b2, b3, b4, b5, b6, b7, b8, b9, b10,
      b11, b12, b13, b14, b15]).head? = some (hexDigitChar (b0 / 16)) := by
    rw [hyphenatedChars_unfold]
    rfl
  have hne_u : hexDigitChar (b0 / 16) ≠ 'u' := hexDigitChar_ne_u _ (by omega)
  have hs_strip := stripWrapper_id (isPrefixOf_urn_false_head hs_head hne_u)
    (fun hh => by rw [hs_len] at hh; exact absurd hh (by decide))
  have hh_strip := stripWrapper_id (isPrefixOf_urn_false_head hh_head hne_u)
    (fun hh => by rw [hh_len] at hh; exact absurd hh (by decide))
  refine ⟨?_, ?_, ?_, ?_⟩
  · rw [Imp_parse_scan hs_strip (Or.inr hs_len), hs_len]
    exact scan_simple16 0 b0 b1 b2 b3 b4 b5 b6 b7 b8 b9 b10 b11 b12 b13 b14 b15
      h0 h1 h2 h3 h4 h5 h6 h7 h8 h9 h10 h11 h12 h13 h14 h15
  · rw [Imp_parse_scan hh_strip (Or.inl hh_len), hh_len]
    exact scan_hyph16 0 b0 b1 b2 b3 b4 b5 b6 b7 b8 b9 b10 b11 b12 b13 b14 b15
      h0 h1 h2 h3 h4 h5 h6 h7 h8 h9 h10 h11 h12 h13 h14 h15
  · rw [Imp_parse_scan (stripWrapper_urn _) (Or.inl hh_len), hh_len]
    exact scan_hyph16 9 b0 b1 b2 b3 b4 b5 b6 b7 b8 b9 b10 b11 b12 b13 b14 b15
      h0 h1 h2 h3 h4 h5 h6 h7 h8 h9 h10 h11 h12 h13 h14 h15
  · rw [Imp_parse_scan (stripWrapper_braced _ hh_len) (Or.inl hh_len), hh_len]
    exact scan_hyph16 1 b0 b1 b2 b3 b4 b5 b6 b7 b8 b9 b10 b11 b12 b13 b14 b15
      h0 h1 h2 h3 h4 h5 h6 h7 h8 h9 h10 h11 h12 h13 h14 h15

end UuidSpec

namespace UuidSpec

theorem exists_sixteen (bs : List Nat) (h : bs.length = 16) :
    ∃ b0 b1 b2 b3 b4 b5 b6 b7 b8 b9 b10 b11 b12 b13 b14 b15,
      bs = [b0, b1, b2, b3, b4, b5, b6, b7, b8, b9, b10, b11, b12, b13, b14, b15] := by
  rcases bs with _ | ⟨b0, bs⟩
  · simp at h
  rcases bs with _ | ⟨b1, bs⟩
  · simp at h
  rcases bs with _ | ⟨b2, bs⟩
  · simp at h
  rcases bs with _ | ⟨b3, bs⟩
  · simp at h
  rcases bs with _ | ⟨b4, bs⟩
  · simp at h
  rcases bs with _ | ⟨b5, bs⟩
  · simp at h
  rcases bs with _ | ⟨b6, bs⟩
  · simp at h
  rcases bs with _ | ⟨b7, bs⟩
  · simp at h
  rcases bs with _ | ⟨b8, bs⟩
  · simp at h
  rcases bs with _ | ⟨b9, bs⟩
  · simp at h
  rcases bs with _ | ⟨b10, bs⟩
  · simp at h
  rcases bs with _ | ⟨b11, bs⟩
  · simp at h
  rcases bs with _ | ⟨b12, bs⟩
  · simp at h
  rcases bs with _ | ⟨b13, bs⟩
  · simp at h
  rcases bs with _ | ⟨b14, bs⟩
  · simp at h
  rcases bs with _ | ⟨b15, bs⟩
  · simp at h
  rcases bs with _ | ⟨b16, bs⟩
  · exact ⟨b0, b1, b2, b3, b4, b5, b6, b7, b8, b9, b10, b11, b12, b13, b14, b15, rfl⟩
  · simp at h

/-- C1: rendering any 16-byte identifier value in each of its four surface
forms (simple, hyphenated, URN-prefixed, brace-wrapped) and parsing the
rendered string back returns `Ok` of an equal value, for each form
independently. -/
theorem claim_C1_roundtrip (u : Uuid) (hlen : u.bytes.length = 16)
    (hbytes : ∀ b ∈ u.bytes, b < 256) :
    Uuid.parse_str u.to_simple = .ok u ∧
    Uuid.parse_str u.to_hyphenated = .ok u ∧
    Uuid.parse_str u.to_urn = .ok u ∧
    Uuid.parse_str u.to_braced = .ok u := by
  obtain ⟨bs⟩ := u
  obtain ⟨b0, b1, b2, b3, b4, b5, b6, b7, b8, b9, b10, b11, b12, b13, b14,
    b15, rfl⟩ := exists_sixteen bs hlen
  have h0 : b0 < 256 := hbytes _ (by simp)
  have h1 : b1 < 256 := hbytes _ (by simp)
  have h2 : b2 < 256 := hbytes _ (by simp)
  have h3 : b3 < 256 := hbytes _ (by simp)
  have h4 : b4 < 256 := hbytes _ (by simp)
  have h5 : b5 < 256 := hbytes _ (by simp)
  have h6 : b6 < 256 := hbytes _ (by simp)
  have h7 : b7 < 256 := hbytes _ (by simp)
  have h8 : b8 < 256 := hbytes _ (by simp)
  have h9 : b9 < 256 := hbytes _ (by simp)
  have h10 : b10 < 256 := hbytes _ (by simp)
  have h11 : b11 < 256 := hbytes _ (by simp)
  have h12 : b12 < 256 := hbytes _ (by simp)
  have h13 : b13 < 256 := hbytes _ (by simp)
  have h14 : b14 < 256 := hbytes _ (by simp)
  have h15 : b15 < 256 := hbytes _ (by simp)
  obtain ⟨r1, r2, r3, r4⟩ := Imp_roundtrip b0 b1 b2 b3 b4 b5 b6 b7 b8 b9 b10
    b11 b12 b13 b14 b15 h0 h1 h2 h3 h4 h5 h6 h7 h8 h9 h10 h11 h12 h13 h14 h15
  refine ⟨?_, ?_, ?_, ?_⟩
  · simp only [Uuid.parse_str, Uuid.to_simple, r1, Except.map, Uuid.from_bytes]
  · simp only [Uuid.parse_str, Uuid.to_hyphenated, r2, Except.map, Uuid.from_bytes]
  · simp only [Uuid.parse_str, Uuid.to_urn, r3, Except.map, Uuid.from_bytes]
  · simp only [Uuid.parse_str, Uuid.to_braced, r4, Except.map, Uuid.from_bytes]

end UuidSpec

namespace UuidSpec

/-- C2: for every input string the parser is total: it returns either `Ok`
with a 16-byte value (each byte below 256) or `Err` with a diagnostic; there
is no other outcome. -/
theorem claim_C2_total (s : String) :
    (∃ u, Uuid.parse_str s = .ok u ∧ u.bytes.length = 16 ∧
      ∀ b ∈ u.bytes, b < 256) ∨
    (∃ e, Uuid.parse_str s = .error e) := by
  cases hp : Imp.parse_str s.data with
  | error e =>
    exact Or.inr ⟨e, by simp [Uuid.parse_str, hp, Except.map]⟩
  | ok out =>
    have hshape : out.length = (List.replicate 16 (0 : Nat)).length ∧
        ∀ b ∈ out, b < 256 := by
      have hp2 := hp
      unfold Imp.parse_str at hp2
      split at hp2
      · exact absurd hp2 (by simp)
      · exact scan_ok_shape _ _ _ _ _ _ _ _ (fun hh => by omega)
          (fun b hb => by rw [List.eq_of_mem_replicate hb]; omega) hp2
    refine Or.inl ⟨Uuid.from_bytes out, ?_, ?_, ?_⟩
    · simp [Uuid.parse_str, hp, Except.map]
    · simpa using hshape.1
    · exact hshape.2

/-- C3: every input whose length after wrapper stripping is neither 36 nor 32
is rejected with `InvalidLength`, carrying the stripped length as `found` and
the set 36, 32 as `expected`, regardless of the input's characters. -/
theorem claim_C3_lengthFirst (s : String)
    (h36 : (stripWrapper s.data).1.length ≠ 36)
    (h32 : (stripWrapper s.data).1.length ≠ 32) :
    Uuid.parse_str s = .error ⟨.InvalidLength (.Any [36, 32])
      (stripWrapper s.data).1.length⟩ := by
  have h := Imp_parse_badLength h36 h32
  simp [Uuid.parse_str, h, Except.map]

/-- Witness for C3 at the 33-character input that also contains the non-hex
character g: the length error fires with found 33. -/
theorem claim_C3_lengthFirst_witness :
    (stripWrapper "67e5504410b1426f9247bb680e5fe0cg8".data).1.length ≠ 36 ∧
    Uuid.parse_str "67e5504410b1426f9247bb680e5fe0cg8" =
      .error ⟨.InvalidLength (.Any [36, 32])
        (stripWrapper "67e5504410b1426f9247bb680e5fe0cg8".data).1.length⟩ :=
  ⟨by decide, claim_C3_lengthFirst _ (by decide) (by decide)⟩

/-- C9: the `FromStr` and `TryFrom<&str>` conversions return exactly the
result of `Uuid::parse_str`, value and error alike. -/
theorem claim_C9_conversions (s : String) :
    Uuid.from_str s = Uuid.parse_str s ∧ Uuid.try_from s = Uuid.parse_str s :=
  ⟨rfl, rfl⟩

/-- C10: for inputs that do not begin with the URN prefix, every
`InvalidCharacter` diagnostic carries the `Optional` URN-context flag. -/
theorem claim_C10_urnFlag (s : String)
    (hn : ¬ urnPrefixStr.isPrefixOf s.data = true) :
    ∀ e c k u, Uuid.parse_str s = .error ⟨.InvalidCharacter e c k u⟩ →
      u = .Optional := by
  intro e c k u h
  cases hp : Imp.parse_str s.data with
  | ok out =>
    simp only [Uuid.parse_str, hp, Except.map] at h
    exact absurd h (by simp)
  | error e2 =>
    simp only [Uuid.parse_str, hp, Except.map] at h
    injection h with h1
    rw [h1] at hp
    unfold Imp.parse_str at hp
    split at hp
    · exact absurd hp (by simp)
    · exact scan_urnFlag _ _ _ _ _ _ _ _ _ _ _ hp

/-- Witness for C10 at a 32-character input with a bad character at index 6. -/
theorem claim_C10_urnFlag_witness :
    ¬ urnPrefixStr.isPrefixOf "67e550X410b1426f9247bb680e5fe0cd".data = true ∧
    UrnPrefixFlag.Optional = UrnPrefixFlag.Optional :=
  ⟨by decide, claim_C10_urnFlag "67e550X410b1426f9247bb680e5fe0cd" (by decide)
    expectedChars 'X' 6 .Optional (by decide)⟩

end UuidSpec

namespace UuidSpec

/-- Helper for C4: a 36-character all-hex input (no hyphen anywhere) is
rejected with `InvalidLength` carrying found 36, not with a group-count
diagnostic: the scanner consumes 32 digits and then reports the length. -/
theorem Imp_nohyphen_hex36 (l : List Char) (hlen : l.length = 36)
    (hhex : ∀ c ∈ l, (hexVal c).isSome) :
    Imp.parse_str l = .error ⟨.InvalidLength (.Any [36, 32]) 36⟩ := by
  obtain ⟨c0, t, hct⟩ : ∃ c0 t, l = c0 :: t := by
    cases l with
    | nil => simp at hlen
    | cons a t => exact ⟨a, t, rfl⟩
  have hhead : l.head? = some c0 := by rw [hct]; rfl
  have hne : urnPrefixStr.isPrefixOf l = false :=
    isPrefixOf_urn_false_head hhead
      (hexVal_isSome_ne_u (hhex c0 (by rw [hct]; simp)))
  have hstrip : stripWrapper l = (l, 0) := stripWrapper_id hne
    (fun hh => by rw [hlen] at hh; exact absurd hh (by decide))
  rw [Imp_parse_scan hstrip (Or.inl hlen), hlen]
  have htake : (l.take 32).length = 32 := by simp [hlen]
  obtain ⟨acc2, buf2, hrun⟩ := scan_hexRun (l.take 32) 36 0 0 0 0
    (List.replicate 16 0) (l.drop 32)
    (fun c hc => hhex c (List.mem_of_mem_take hc)) (by rw [htake])
  conv_lhs => rw [← List.take_append_drop 32 l]
  rw [hrun, htake]
  obtain ⟨c, t2, hd⟩ : ∃ c t2, l.drop 32 = c :: t2 := by
    have hle : (l.drop 32).length = 4 := by simp [hlen]
    cases hd : l.drop 32 with
    | nil => rw [hd] at hle; simp at hle
    | cons a t2 => exact ⟨a, t2, rfl⟩
  rw [hd]
  exact scan_stop_group0 36 (0 + 32) acc2 buf2 c t2

/-- C4 counterexample: the crate's own pinned test input, 36 decimal digits
with no hyphen at all (group count 1), is rejected with
`InvalidLength found: 36` and NOT with `InvalidGroupCount found: 1` as the
claim asserts. -/
theorem claim_C4_counterexample :
    Uuid.parse_str "231231212212423424324323477343246663" =
      .error ⟨.InvalidLength (.Any [36, 32]) 36⟩ ∧
    Uuid.parse_str "231231212212423424324323477343246663" ≠
      .error ⟨.InvalidGroupCount (.Any [1, 5]) 1⟩ := by
  exact ⟨by decide, by decide⟩

/-- C7: an input of accepted shape with a character outside the hex alphabet
fails with `InvalidCharacter` carrying the full expected alphabet, the
offending character and its index in the original un-stripped input; the
URN-wrapped variant shows the index accounting for the stripped prefix. -/
theorem claim_C7_invalidCharacter :
    Uuid.parse_str "F9168C5E-CEB2-4faa-BGBF-329BF39FA1E4" =
      .error ⟨.InvalidCharacter expectedChars 'G' 20 .Optional⟩ ∧
    expectedChars = "0123456789abcdefABCDEF-" ∧
    Uuid.parse_str "urn:uuid:F9168C5E-CEB2-4faa-BGBF-329BF39FA1E4" =
      .error ⟨.InvalidCharacter expectedChars 'G' 29 .Optional⟩ := by
  exact ⟨by decide, rfl, by decide⟩

/-- C8: both nil renderings (32 zero digits, zero hyphenated form) parse to
the all-zero 16-byte value. -/
theorem claim_C8_nil :
    Uuid.parse_str "00000000000000000000000000000000" =
      .ok ⟨List.replicate 16 0⟩ ∧
    Uuid.parse_str "00000000-0000-0000-0000-000000000000" =
      .ok ⟨List.replicate 16 0⟩ := by
  exact ⟨by decide, by decide⟩

end UuidSpec

namespace UuidSpec

/-- C5 counterexample: the 34-character brace-enclosed simple form (the
crate's own pinned test input) does NOT parse successfully; the braces are
not removed at this length and the parse fails with
`InvalidLength found: 34`. -/
theorem claim_C5_counterexample :
    Uuid.parse_str "\x7b00000000000000000000000000000000\x7d" =
      .error ⟨.InvalidLength (.Any [36, 32]) 34⟩ ∧
    ∀ u, Uuid.parse_str "\x7b00000000000000000000000000000000\x7d" ≠
      .ok u := by
  have he : Uuid.parse_str "\x7b00000000000000000000000000000000\x7d" =
      .error ⟨.InvalidLength (.Any [36, 32]) 34⟩ := by decide
  refine ⟨he, fun u h => ?_⟩
  rw [he] at h
  exact absurd h (by simp)

/-- C5 amended: the brace pair is removed before any other validation only
when the total length is exactly 38 (brace-wrapped hyphenated form), in which
case the 36-character remainder is validated as usual; the 34-character
brace-wrapped simple form is instead rejected with `InvalidLength found: 34`
(see the counterexample). -/
theorem claim_C5_amended :
    (∀ s : List Char, s.length = 36 →
      stripWrapper ('\x7b' :: (s ++ ['\x7d'])) = (s, 1)) ∧
    Uuid.parse_str "\x7b6d93bade-bd9f-4e13-8914-9474e1e3567b\x7d" =
      .ok ⟨[109, 147, 186, 222, 189, 159, 78, 19, 137, 20, 148, 116, 225,
        227, 86, 123]⟩ :=
  ⟨fun s hs => stripWrapper_braced s hs, by decide⟩

/-- Witness for C5 amended: brace stripping on a brace-wrapped 36-character
sequence. -/
theorem claim_C5_amended_witness :
    "000000000000000000000000000000000000".data.length = 36 ∧
    stripWrapper ('\x7b' ::
        ("000000000000000000000000000000000000".data ++ ['\x7d'])) =
      ("000000000000000000000000000000000000".data, 1) :=
  ⟨by decide, claim_C5_amended.1 _ (by decide)⟩

end UuidSpec

namespace UuidSpec

/-- A separator encountered at a digit count that does not match the
accumulated group boundary is reported as a group-length error (both parity
branches of the scanner produce the same payload). -/
theorem scan_dash_bad (len i digit group acc : Nat) (buf : List Nat)
    (rest : List Char) (hd : digit < 32)
    (hbad : accGroupLens.getD group 0 ≠ digit) :
    scan len ('-' :: rest) i digit group acc buf =
      .error ⟨.InvalidGroupLength (.Exact (groupLens.getD group 0))
        (groupFound digit group) group⟩ := by
  rcases Nat.mod_two_eq_zero_or_one digit with he | he
  · rw [scan, if_neg (fun hh => absurd hh.1 (by omega)), if_pos he,
      if_pos rfl, if_pos hbad]
  · rw [scan, if_neg (fun hh => absurd hh.1 (by omega)), if_neg (by omega),
      if_pos rfl]

/-- Scanning an all-hex group that is shorter than its required length and
then hitting the following separator yields `InvalidGroupLength` carrying the
group's required length, its actual digit count and its index. -/
theorem scan_group_short (gk : List Char) (len i group acc D : Nat)
    (buf : List Nat) (rest : List Char)
    (hg : ∀ c ∈ gk, (hexVal c).isSome)
    (hD : D = if group = 0 then 0 else accGroupLens.getD (group - 1) 0)
    (hshort : D + gk.length < accGroupLens.getD group 0)
    (hle : accGroupLens.getD group 0 ≤ 32) :
    scan len (gk ++ '-' :: rest) i D group acc buf =
      .error ⟨.InvalidGroupLength (.Exact (groupLens.getD group 0))
        gk.length group⟩ := by
  obtain ⟨a2, b2, hrun⟩ := scan_hexRun gk len i D group acc buf ('-' :: rest)
    hg (by omega)
  rw [hrun]
  rw [scan_dash_bad len (i + gk.length) (D + gk.length) group a2 b2 rest
    (by omega) (by omega)]
  have hf : groupFound (D + gk.length) group = gk.length := by
    unfold groupFound
    split
    next h0 =>
      simp only [h0, if_pos] at hD
      omega
    next h0 =>
      rw [if_neg h0] at hD
      omega
  rw [hf]

/-- The end-of-input variant for the last group: arriving at the end of the
input with a short fifth group yields `InvalidGroupLength` for group 4. -/
theorem scan_group4_short (g4 : List Char) (len i acc : Nat) (buf : List Nat)
    (hg : ∀ c ∈ g4, (hexVal c).isSome) (hlt : g4.length < 12) :
    scan len g4 i 20 4 acc buf =
      .error ⟨.InvalidGroupLength (.Exact 12) g4.length 4⟩ := by
  obtain ⟨a2, b2, hrun⟩ := scan_hexRun g4 len i 20 4 acc buf [] hg (by omega)
  conv_lhs => rw [← List.append_nil g4]
  rw [hrun, scan, if_pos (by omega)]
  have h2 : groupFound (20 + g4.length) 4 = g4.length := by
    unfold groupFound
    rw [if_neg (by omega)]
    have h3 : accGroupLens.getD (4 - 1) 0 = 20 := rfl
    rw [h3]
    omega
  rw [h2]
  rfl

end UuidSpec

namespace UuidSpec

theorem Imp_parse_open (l : List Char)
    (hne : urnPrefixStr.isPrefixOf l = false)
    (hlen : l.length = 36 ∨ l.length = 32) :
    Imp.parse_str l = scan l.length l 0 0 0 0 (List.replicate 16 0) := by
  have hstrip : stripWrapper l = (l, 0) := stripWrapper_id hne
    (fun hh => by
      rcases hlen with h | h <;> rw [h] at hh <;> exact absurd hh (by decide))
  exact Imp_parse_scan hstrip hlen

theorem notUrn_append_dash (g0 rest : List Char)
    (hg : ∀ c ∈ g0, (hexVal c).isSome) :
    urnPrefixStr.isPrefixOf (g0 ++ '-' :: rest) = false := by
  cases g0 with
  | nil => exact isPrefixOf_urn_false rest (by decide)
  | cons a t =>
    exact isPrefixOf_urn_false (t ++ '-' :: rest)
      (hexVal_isSome_ne_u (hg a (by simp)))

theorem Imp_group0_short (g0 rest : List Char)
    (hg0 : ∀ c ∈ g0, (hexVal c).isSome) (hlt : g0.length < 8)
    (hlen : (g0 ++ '-' :: rest).length = 36 ∨
      (g0 ++ '-' :: rest).length = 32) :
    Imp.parse_str (g0 ++ '-' :: rest) =
      .error ⟨.InvalidGroupLength (.Exact 8) g0.length 0⟩ := by
  rw [Imp_parse_open _ (notUrn_append_dash g0 rest hg0) hlen]
  exact scan_group_short g0 _ 0 0 0 0 (List.replicate 16 0) rest hg0 rfl
    (by show 0 + g0.length < 8; omega) (by decide)

theorem Imp_group1_short (g0 g1 rest : List Char)
    (hg0 : ∀ c ∈ g0, (hexVal c).isSome) (h8 : g0.length = 8)
    (hg1 : ∀ c ∈ g1, (hexVal c).isSome) (hlt : g1.length < 4)
    (hlen : (g0 ++ '-' :: (g1 ++ '-' :: rest)).length = 36 ∨
      (g0 ++ '-' :: (g1 ++ '-' :: rest)).length = 32) :
    Imp.parse_str (g0 ++ '-' :: (g1 ++ '-' :: rest)) =
      .error ⟨.InvalidGroupLength (.Exact 4) g1.length 1⟩ := by
  rw [Imp_parse_open _ (notUrn_append_dash g0 _ hg0) hlen]
  obtain ⟨a1, b1, hr1⟩ := scan_hexRun g0 _ 0 0 0 0 (List.replicate 16 0)
    ('-' :: (g1 ++ '-' :: rest)) hg0 (by omega)
  rw [hr1, h8]
  simp only [Nat.zero_add]
  rw [scan_dash8]
  exact scan_group_short g1 _ _ 1 a1 8 b1 rest hg1 rfl
    (by show 8 + g1.length < 12; omega) (by decide)

theorem Imp_group2_short (g0 g1 g2 rest : List Char)
    (hg0 : ∀ c ∈ g0, (hexVal c).isSome) (h8 : g0.length = 8)
    (hg1 : ∀ c ∈ g1, (hexVal c).isSome) (h4 : g1.length = 4)
    (hg2 : ∀ c ∈ g2, (hexVal c).isSome) (hlt : g2.length < 4)
    (hlen : (g0 ++ '-' :: (g1 ++ '-' :: (g2 ++ '-' :: rest))).length = 36 ∨
      (g0 ++ '-' :: (g1 ++ '-' :: (g2 ++ '-' :: rest))).length = 32) :
    Imp.parse_str (g0 ++ '-' :: (g1 ++ '-' :: (g2 ++ '-' :: rest))) =
      .error ⟨.InvalidGroupLength (.Exact 4) g2.length 2⟩ := by
  rw [Imp_parse_open _ (notUrn_append_dash g0 _ hg0) hlen]
  obtain ⟨a1, b1, hr1⟩ := scan_hexRun g0 _ 0 0 0 0 (List.replicate 16 0)
    ('-' :: (g1 ++ '-' :: (g2 ++ '-' :: rest))) hg0 (by omega)
  rw [hr1, h8]
  simp only [Nat.zero_add]
  rw [scan_dash8]
  obtain ⟨a2, b2, hr2⟩ := scan_hexRun g1 _ (8 + 1) 8 1 a1 b1
    ('-' :: (g2 ++ '-' :: rest)) hg1 (by omega)
  rw [hr2, h4]
  norm_num
  rw [scan_dash12]
  exact scan_group_short g2 _ _ 2 a2 12 b2 rest hg2 rfl
    (by show 12 + g2.length < 16; omega) (by decide)

theorem Imp_group3_short (g0 g1 g2 g3 rest : List Char)
    (hg0 : ∀ c ∈ g0, (hexVal c).isSome) (h8 : g0.length = 8)
    (hg1 : ∀ c ∈ g1, (hexVal c).isSome) (h4 : g1.length = 4)
    (hg2 : ∀ c ∈ g2, (hexVal c).isSome) (h4b : g2.length = 4)
    (hg3 : ∀ c ∈ g3, (hexVal c).isSome) (hlt : g3.length < 4)
    (hlen :
      (g0 ++ '-' :: (g1 ++ '-' :: (g2 ++ '-' :: (g3 ++ '-' :: rest)))).length
        = 36 ∨
      (g0 ++ '-' :: (g1 ++ '-' :: (g2 ++ '-' :: (g3 ++ '-' :: rest)))).length
        = 32) :
    Imp.parse_str (g0 ++ '-' :: (g1 ++ '-' :: (g2 ++ '-' ::
        (g3 ++ '-' :: rest)))) =
      .error ⟨.InvalidGroupLength (.Exact 4) g3.length 3⟩ := by
  rw [Imp_parse_open _ (notUrn_append_dash g0 _ hg0) hlen]
  obtain ⟨a1, b1, hr1⟩ := scan_hexRun g0 _ 0 0 0 0 (List.replicate 16 0)
    ('-' :: (g1 ++ '-' :: (g2 ++ '-' :: (g3 ++ '-' :: rest)))) hg0 (by omega)
  rw [hr1, h8]
  simp only [Nat.zero_add]
  rw [scan_dash8]
  obtain ⟨a2, b2, hr2⟩ := scan_hexRun g1 _ (8 + 1) 8 1 a1 b1
    ('-' :: (g2 ++ '-' :: (g3 ++ '-' :: rest))) hg1 (by omega)
  rw [hr2, h4]
  norm_num
  rw [scan_dash12]
  obtain ⟨a3, b3, hr3⟩ := scan_hexRun g2 _ (8 + 1 + 4 + 1) 12 2 a2 b2
    ('-' :: (g3 ++ '-' :: rest)) hg2 (by omega)
  rw [hr3, h4b]
  norm_num
  rw [scan_dash16]
  exact scan_group_short g3 _ _ 3 a3 16 b3 rest hg3 rfl
    (by show 16 + g3.length < 20; omega) (by decide)

theorem Imp_group4_short (g0 g1 g2 g3 g4 : List Char)
    (hg0 : ∀ c ∈ g0, (hexVal c).isSome) (h8 : g0.length = 8)
    (hg1 : ∀ c ∈ g1, (hexVal c).isSome) (h4 : g1.length = 4)
    (hg2 : ∀ c ∈ g2, (hexVal c).isSome) (h4b : g2.length = 4)
    (hg3 : ∀ c ∈ g3, (hexVal c).isSome) (h4c : g3.length = 4)
    (hg4 : ∀ c ∈ g4, (hexVal c).isSome) (hlt : g4.length < 12)
    (hlen :
      (g0 ++ '-' :: (g1 ++ '-' :: (g2 ++ '-' :: (g3 ++ '-' :: g4)))).length
        = 36 ∨
      (g0 ++ '-' :: (g1 ++ '-' :: (g2 ++ '-' :: (g3 ++ '-' :: g4)))).length
        = 32) :
    Imp.parse_str (g0 ++ '-' :: (g1 ++ '-' :: (g2 ++ '-' ::
        (g3 ++ '-' :: g4)))) =
      .error ⟨.InvalidGroupLength (.Exact 12) g4.length 4⟩ := by
  rw [Imp_parse_open _ (notUrn_append_dash g0 _ hg0) hlen]
  obtain ⟨a1, b1, hr1⟩ := scan_hexRun g0 _ 0 0 0 0 (List.replicate 16 0)
    ('-' :: (g1 ++ '-' :: (g2 ++ '-' :: (g3 ++ '-' :: g4)))) hg0 (by omega)
  rw [hr1, h8]
  simp only [Nat.zero_add]
  rw [scan_dash8]
  obtain ⟨a2, b2, hr2⟩ := scan_hexRun g1 _ (8 + 1) 8 1 a1 b1
    ('-' :: (g2 ++ '-' :: (g3 ++ '-' :: g4))) hg1 (by omega)
  rw [hr2, h4]
  norm_num
  rw [scan_dash12]
  obtain ⟨a3, b3, hr3⟩ := scan_hexRun g2 _ (8 + 1 + 4 + 1) 12 2 a2 b2
    ('-' :: (g3 ++ '-' :: g4)) hg2 (by omega)
  rw [hr3, h4b]
  norm_num
  rw [scan_dash16]
  obtain ⟨a4, b4, hr4⟩ := scan_hexRun g3 _ (8 + 1 + 4 + 1 + 4 + 1) 16 3 a3 b3
    ('-' :: g4) hg3 (by omega)
  rw [hr4, h4c]
  norm_num
  rw [scan_dash20]
  exact scan_group4_short g4 _ _ a4 b4 hg4 hlt

end UuidSpec

namespace UuidSpec

/-- C6 counterexample: a 36-character input splitting into exactly 5
hyphen-separated groups whose group 1 has 3 characters instead of 4 — but
which contains the non-hex character Z inside group 0.  The claim demands
`InvalidGroupLength group: 1`; the parser instead reports the character
error at index 7, because character validation is interleaved with group
scanning and the first anomaly in scan order wins. -/
theorem claim_C6_counterexample :
    Uuid.parse_str "0102030Z-112-2122-3132-414243444546X" =
      .error ⟨.InvalidCharacter expectedChars 'Z' 7 .Optional⟩ ∧
    Uuid.parse_str "0102030Z-112-2122-3132-414243444546X" ≠
      .error ⟨.InvalidGroupLength (.Exact 4) 3 1⟩ :=
  ⟨by decide, by decide⟩

/-- C6 amended: for a stripped input of accepted total length (36 or 32) in
which the groups scanned so far consist of hex digits, the groups before the
offending one have exactly their required lengths (8, 4, 4, 4) and the first
offending group is SHORTER than required, the parser fails with
`InvalidGroupLength` carrying `Exact` of that group's required length, the
group's actual digit count as `found`, and the zero-based group index — one
statement per group index 0 to 4.  (Unlike the original claim, this holds
regardless of how many groups follow, and an invalid character located
before the offending separator preempts the group-length error.) -/
theorem claim_C6_amended :
    (∀ g0 rest : List Char, (∀ c ∈ g0, (hexVal c).isSome) →
      g0.length < 8 →
      ((g0 ++ '-' :: rest).length = 36 ∨ (g0 ++ '-' :: rest).length = 32) →
      Uuid.parse_str ⟨g0 ++ '-' :: rest⟩ =
        .error ⟨.InvalidGroupLength (.Exact 8) g0.length 0⟩) ∧
    (∀ g0 g1 rest : List Char, (∀ c ∈ g0, (hexVal c).isSome) →
      g0.length = 8 → (∀ c ∈ g1, (hexVal c).isSome) → g1.length < 4 →
      ((g0 ++ '-' :: (g1 ++ '-' :: rest)).length = 36 ∨
        (g0 ++ '-' :: (g1 ++ '-' :: rest)).length = 32) →
      Uuid.parse_str ⟨g0 ++ '-' :: (g1 ++ '-' :: rest)⟩ =
        .error ⟨.InvalidGroupLength (.Exact 4) g1.length 1⟩) ∧
    (∀ g0 g1 g2 rest : List Char, (∀ c ∈ g0, (hexVal c).isSome) →
      g0.length = 8 → (∀ c ∈ g1, (hexVal c).isSome) → g1.length = 4 →
      (∀ c ∈ g2, (hexVal c).isSome) → g2.length < 4 →
      ((g0 ++ '-' :: (g1 ++ '-' :: (g2 ++ '-' :: rest))).length = 36 ∨
        (g0 ++ '-' :: (g1 ++ '-' :: (g2 ++ '-' :: rest))).length = 32) →
      Uuid.parse_str ⟨g0 ++ '-' :: (g1 ++ '-' :: (g2 ++ '-' :: rest))⟩ =
        .error ⟨.InvalidGroupLength (.Exact 4) g2.length 2⟩) ∧
    (∀ g0 g1 g2 g3 rest : List Char, (∀ c ∈ g0, (hexVal c).isSome) →
      g0.length = 8 → (∀ c ∈ g1, (hexVal c).isSome) → g1.length = 4 →
      (∀ c ∈ g2, (hexVal c).isSome) → g2.length = 4 →
      (∀ c ∈ g3, (hexVal c).isSome) → g3.length < 4 →
      ((g0 ++ '-' :: (g1 ++ '-' :: (g2 ++ '-' :: (g3 ++ '-' :: rest)))).length
          = 36 ∨
        (g0 ++ '-' :: (g1 ++ '-' :: (g2 ++ '-' :: (g3 ++ '-' :: rest)))).length
          = 32) →
      Uuid.parse_str ⟨g0 ++ '-' :: (g1 ++ '-' :: (g2 ++ '-' ::
          (g3 ++ '-' :: rest)))⟩ =
        .error ⟨.InvalidGroupLength (.Exact 4) g3.length 3⟩) ∧
    (∀ g0 g1 g2 g3 g4 : List Char, (∀ c ∈ g0, (hexVal c).isSome) →
      g0.length = 8 → (∀ c ∈ g1, (hexVal c).isSome) → g1.length = 4 →
      (∀ c ∈ g2, (hexVal c).isSome) → g2.length = 4 →
      (∀ c ∈ g3, (hexVal c).isSome) → g3.length = 4 →
      (∀ c ∈ g4, (hexVal c).isSome) → g4.length < 12 →
      ((g0 ++ '-' :: (g1 ++ '-' :: (g2 ++ '-' :: (g3 ++ '-' :: g4)))).length
          = 36 ∨
        (g0 ++ '-' :: (g1 ++ '-' :: (g2 ++ '-' :: (g3 ++ '-' :: g4)))).length
          = 32) →
      Uuid.parse_str ⟨g0 ++ '-' :: (g1 ++ '-' :: (g2 ++ '-' ::
          (g3 ++ '-' :: g4)))⟩ =
        .error ⟨.InvalidGroupLength (.Exact 12) g4.length 4⟩) := by
  refine ⟨fun g0 rest hg0 hlt hlen => ?_,
    fun g0 g1 rest hg0 h8 hg1 hlt hlen => ?_,
    fun g0 g1 g2 rest hg0 h8 hg1 h4 hg2 hlt hlen => ?_,
    fun g0 g1 g2 g3 rest hg0 h8 hg1 h4 hg2 h4b hg3 hlt hlen => ?_,
    fun g0 g1 g2 g3 g4 hg0 h8 hg1 h4 hg2 h4b hg3 h4c hg4 hlt hlen => ?_⟩
  · have h := Imp_group0_short g0 rest hg0 hlt hlen
    simp [Uuid.parse_str, h, Except.map]
  · have h := Imp_group1_short g0 g1 rest hg0 h8 hg1 hlt hlen
    simp [Uuid.parse_str, h, Except.map]
  · have h := Imp_group2_short g0 g1 g2 rest hg0 h8 hg1 h4 hg2 hlt hlen
    simp [Uuid.parse_str, h, Except.map]
  · have h := Imp_group3_short g0 g1 g2 g3 rest hg0 h8 hg1 h4 hg2 h4b hg3
      hlt hlen
    simp [Uuid.parse_str, h, Except.map]
  · have h := Imp_group4_short g0 g1 g2 g3 g4 hg0 h8 hg1 h4 hg2 h4b hg3 h4c
      hg4 hlt hlen
    simp [Uuid.parse_str, h, Except.map]

/-- Witness for C6 amended: the crate's pinned test input with a short group
1 (the string F9168C5E-CEB-24fa-eB6BFF32-BF39FA1E4), decomposed into its
groups. -/
theorem claim_C6_amended_witness :
    "CEB".data.length = 3 ∧
    Uuid.parse_str ⟨"F9168C5E".data ++ '-' :: ("CEB".data ++ '-' ::
        "24fa-eB6BFF32-BF39FA1E4".data)⟩ =
      .error ⟨.InvalidGroupLength (.Exact 4) ("CEB".data.length) 1⟩ :=
  ⟨by decide, claim_C6_amended.2.1 "F9168C5E".data "CEB".data
    "24fa-eB6BFF32-BF39FA1E4".data (by decide) (by decide) (by decide)
    (by decide) (by decide)⟩

end UuidSpec

namespace UuidSpec

/-- Witness for C1 at the test suite's UUID 67e55044-10b1-426f-9247-bb680e5fe0c8. -/
theorem claim_C1_roundtrip_witness :
    (Uuid.mk [103, 229, 80, 68, 16, 177, 66, 111, 146, 71, 187, 104, 14, 95,
      224, 200]).bytes.length = 16 ∧
    Uuid.parse_str (Uuid.mk [103, 229, 80, 68, 16, 177, 66, 111, 146, 71,
      187, 104, 14, 95, 224, 200]).to_hyphenated =
      .ok (Uuid.mk [103, 229, 80, 68, 16, 177, 66, 111, 146, 71, 187, 104,
        14, 95, 224, 200]) :=
  ⟨by decide, (claim_C1_roundtrip _ (by decide) (by decide)).2.1⟩

/-! ## The crate's pinned test assertions, reproduced against the model

Every assertion of `test_parse_uuid_v4_valid` and `test_parse_uuid_v4_invalid`
(src/parser.rs) evaluated on the model, in source order. -/

example : Uuid.parse_str "67e55044-10b1-426f-9247-bb680e5fe0c8" =
    Uuid.parse_str "67e5504410b1426f9247bb680e5fe0c8" := by decide

example : Uuid.parse_str "67e55044-10b1-426f-9247-bb680e5fe0c8" =
    Uuid.parse_str "urn:uuid:67e55044-10b1-426f-9247-bb680e5fe0c8" := by decide

example : Uuid.parse_str "67e55044-10b1-426f-9247-bb680e5fe0c8" =
    Uuid.parse_str "\x7b67e55044-10b1-426f-9247-bb680e5fe0c8\x7d" := by decide

example : Uuid.parse_str "F9168C5E-CEB2-4faa-B6BF-329BF39FA1E4" =
    .ok ⟨[249, 22, 140, 94, 206, 178, 79, 170, 182, 191, 50, 155, 243, 159,
      161, 228]⟩ := by decide

example : Uuid.parse_str "01020304-1112-2122-3132-414243444546" =
    .ok ⟨[1, 2, 3, 4, 17, 18, 33, 34, 49, 50, 65, 66, 67, 68, 69, 70]⟩ := by
  decide

example : Uuid.parse_str "\x7b6d93bade-bd9f-4e13-8914-9474e1e3567b\x7d" =
    .ok ⟨[109, 147, 186, 222, 189, 159, 78, 19, 137, 20, 148, 116, 225, 227,
      86, 123]⟩ := by decide

example : Uuid.parse_str "" =
    .error ⟨.InvalidLength (.Any [36, 32]) 0⟩ := by decide

example : Uuid.parse_str "!" =
    .error ⟨.InvalidLength (.Any [36, 32]) 1⟩ := by decide

example : Uuid.parse_str "F9168C5E-CEB2-4faa-B6BF-329BF39FA1E45" =
    .error ⟨.InvalidLength (.Any [36, 32]) 37⟩ := by decide

example : Uuid.parse_str "F9168C5E-CEB2-4faa-BBF-329BF39FA1E4" =
    .error ⟨.InvalidLength (.Any [36, 32]) 35⟩ := by decide

example : Uuid.parse_str "F9168C5E-CEB2-4faa-BGBF-329BF39FA1E4" =
    .error ⟨.InvalidCharacter expectedChars 'G' 20 .Optional⟩ := by decide

example : Uuid.parse_str "F9168C5E-CEB2F4faaFB6BFF329BF39FA1E4" =
    .error ⟨.InvalidGroupCount (.Any [1, 5]) 2⟩ := by decide

example : Uuid.parse_str "F9168C5E-CEB2-4faaFB6BFF329BF39FA1E4" =
    .error ⟨.InvalidGroupCount (.Any [1, 5]) 3⟩ := by decide

example : Uuid.parse_str "F9168C5E-CEB2-4faa-B6BFF329BF39FA1E4" =
    .error ⟨.InvalidGroupCount (.Any [1, 5]) 4⟩ := by decide

example : Uuid.parse_str "F9168C5E-CEB2-4faa" =
    .error ⟨.InvalidLength (.Any [36, 32]) 18⟩ := by decide

example : Uuid.parse_str "F9168C5E-CEB2-4faaXB6BFF329BF39FA1E4" =
    .error ⟨.InvalidCharacter expectedChars 'X' 18 .Optional⟩ := by decide

example : Uuid.parse_str "\x7bF9168C5E-CEB2-4faa9B6BFF329BF39FA1E41" =
    .error ⟨.InvalidLength (.Any [36, 32]) 38⟩ := by decide

example : Uuid.parse_str "F9168C5E-CEB-24fa-eB6BFF32-BF39FA1E4" =
    .error ⟨.InvalidGroupLength (.Exact 4) 3 1⟩ := by decide

example : Uuid.parse_str "01020304-1112-2122-3132-41424344" =
    .error ⟨.InvalidGroupLength (.Exact 12) 8 4⟩ := by decide

example : Uuid.parse_str "67e5504410b1426f9247bb680e5fe0c" =
    .error ⟨.InvalidLength (.Any [36, 32]) 31⟩ := by decide

example : Uuid.parse_str "67e5504410b1426f9247bb680e5fe0c88" =
    .error ⟨.InvalidLength (.Any [36, 32]) 33⟩ := by decide

example : Uuid.parse_str "67e5504410b1426f9247bb680e5fe0cg8" =
    .error ⟨.InvalidLength (.Any [36, 32]) 33⟩ := by decide

example : Uuid.parse_str "67e5504410b1426%9247bb680e5fe0c8" =
    .error ⟨.InvalidCharacter expectedChars '%' 15 .Optional⟩ := by decide

example : Uuid.parse_str "231231212212423424324323477343246663" =
    .error ⟨.InvalidLength (.Any [36, 32]) 36⟩ := by decide

example : Uuid.parse_str "\x7b00000000000000000000000000000000\x7d" =
    .error ⟨.InvalidLength (.Any [36, 32]) 34⟩ := by decide

example : Uuid.parse_str "67e550X410b1426f9247bb680e5fe0cd" =
    .error ⟨.InvalidCharacter expectedChars 'X' 6 .Optional⟩ := by decide

example : Uuid.parse_str "67e550-4105b1426f9247bb680e5fe0c" =
    .error ⟨.InvalidGroupLength (.Exact 8) 6 0⟩ := by decide

example : Uuid.parse_str "F9168C5E-CEB2-4faa-B6BF1-02BF39FA1E4" =
    .error ⟨.InvalidGroupLength (.Exact 4) 5 3⟩ := by decide

end UuidSpec

namespace UuidSpec

/-- Scanning a run of hex-alphabet characters that crosses the 32-digit
budget while one to three separators have been consumed stops at the first
character past the budget with `InvalidGroupCount` carrying the current
group count. -/
theorem scan_hexRun_overflow (cs : List Char) : ∀ (len i digit group acc : Nat)
    (buf : List Nat) (rest : List Char), (∀ c ∈ cs, (hexVal c).isSome) →
    digit < 32 → 32 < digit + cs.length → group ≠ 0 → group ≠ 4 →
    scan len (cs ++ rest) i digit group acc buf =
      .error ⟨.InvalidGroupCount (.Any [1, 5]) (group + 1)⟩ := by
  induction cs with
  | nil =>
    intro len i digit group acc buf rest _ h32 hover _ _
    rw [List.length_nil] at hover
    omega
  | cons c cs ih =>
    intro len i digit group acc buf rest hhex h32 hover h0 h4
    have hlen : (c :: cs).length = cs.length + 1 := rfl
    rw [hlen] at hover
    obtain ⟨v, hv⟩ := Option.isSome_iff_exists.mp (hhex c (by simp))
    have hstep : ∃ acc1 buf1,
        scan len (c :: (cs ++ rest)) i digit group acc buf =
        scan len (cs ++ rest) (i + 1) (digit + 1) group acc1 buf1 := by
      rcases Nat.mod_two_eq_zero_or_one digit with he | he
      · exact ⟨v, buf, scan_hex_even len i digit group acc buf _ hv he h32⟩
      · exact ⟨acc * 16 + v, buf.set (digit / 2) (acc * 16 + v),
          scan_hex_odd len i digit group acc buf _ hv he h32⟩
    obtain ⟨acc1, buf1, h1⟩ := hstep
    show scan len (c :: (cs ++ rest)) i digit group acc buf = _
    rw [h1]
    by_cases hd : digit + 1 < 32
    · exact ih len (i + 1) (digit + 1) group acc1 buf1 rest
        (fun x hx => hhex x (by simp [hx])) hd (by omega) h0 h4
    · have hd32 : digit + 1 = 32 := by omega
      obtain ⟨c2, cs2, hc2⟩ : ∃ c2 cs2, cs = c2 :: cs2 := by
        cases cs with
        | nil => rw [List.length_nil] at hover; omega
        | cons a t => exact ⟨a, t, rfl⟩
      rw [hc2, hd32]
      exact scan_stop_groupCount len (i + 1) group acc1 buf1 c2 (cs2 ++ rest)
        h0 h4

/-- Helper for C4: a 36-character input of the shape (8 hex digits, hyphen,
27 hex digits) — two groups with correct group 0 — is rejected with
`InvalidGroupCount found: 2`. -/
theorem Imp_groupCount2 (g0 t : List Char)
    (hg0 : ∀ c ∈ g0, (hexVal c).isSome) (h8 : g0.length = 8)
    (ht : ∀ c ∈ t, (hexVal c).isSome)
    (hlen : (g0 ++ '-' :: t).length = 36) :
    Imp.parse_str (g0 ++ '-' :: t) =
      .error ⟨.InvalidGroupCount (.Any [1, 5]) 2⟩ := by
  have htl : t.length = 27 := by
    rw [List.length_append, List.length_cons] at hlen
    omega
  rw [Imp_parse_open _ (notUrn_append_dash g0 t hg0) (Or.inl hlen)]
  obtain ⟨a1, b1, hr1⟩ := scan_hexRun g0 _ 0 0 0 0 (List.replicate 16 0)
    ('-' :: t) hg0 (by omega)
  rw [hr1, h8]
  simp only [Nat.zero_add]
  rw [scan_dash8]
  conv_lhs => rw [← List.append_nil t]
  exact scan_hexRun_overflow t _ _ 8 1 a1 b1 [] ht (by omega) (by omega)
    (by decide) (by decide)

/-- Helper for C4: three groups with correct groups 0 and 1 and a 22-digit
hex tail are rejected with `InvalidGroupCount found: 3`. -/
theorem Imp_groupCount3 (g0 g1 t : List Char)
    (hg0 : ∀ c ∈ g0, (hexVal c).isSome) (h8 : g0.length = 8)
    (hg1 : ∀ c ∈ g1, (hexVal c).isSome) (h4 : g1.length = 4)
    (ht : ∀ c ∈ t, (hexVal c).isSome)
    (hlen : (g0 ++ '-' :: (g1 ++ '-' :: t)).length = 36) :
    Imp.parse_str (g0 ++ '-' :: (g1 ++ '-' :: t)) =
      .error ⟨.InvalidGroupCount (.Any [1, 5]) 3⟩ := by
  have htl : t.length = 22 := by
    simp only [List.length_append, List.length_cons] at hlen
    omega
  rw [Imp_parse_open _ (notUrn_append_dash g0 _ hg0) (Or.inl hlen)]
  obtain ⟨a1, b1, hr1⟩ := scan_hexRun g0 _ 0 0 0 0 (List.replicate 16 0)
    ('-' :: (g1 ++ '-' :: t)) hg0 (by omega)
  rw [hr1, h8]
  simp only [Nat.zero_add]
  rw [scan_dash8]
  obtain ⟨a2, b2, hr2⟩ := scan_hexRun g1 _ (8 + 1) 8 1 a1 b1 ('-' :: t) hg1
    (by omega)
  rw [hr2, h4]
  norm_num
  rw [scan_dash12]
  conv_lhs => rw [← List.append_nil t]
  exact scan_hexRun_overflow t _ _ 12 2 a2 b2 [] ht (by omega) (by omega)
    (by decide) (by decide)

/-- Helper for C4: four groups with correct groups 0, 1 and 2 and a 17-digit
hex tail are rejected with `InvalidGroupCount found: 4`. -/
theorem Imp_groupCount4 (g0 g1 g2 t : List Char)
    (hg0 : ∀ c ∈ g0, (hexVal c).isSome) (h8 : g0.length = 8)
    (hg1 : ∀ c ∈ g1, (hexVal c).isSome) (h4 : g1.length = 4)
    (hg2 : ∀ c ∈ g2, (hexVal c).isSome) (h4b : g2.length = 4)
    (ht : ∀ c ∈ t, (hexVal c).isSome)
    (hlen : (g0 ++ '-' :: (g1 ++ '-' :: (g2 ++ '-' :: t))).length = 36) :
    Imp.parse_str (g0 ++ '-' :: (g1 ++ '-' :: (g2 ++ '-' :: t))) =
      .error ⟨.InvalidGroupCount (.Any [1, 5]) 4⟩ := by
  have htl : t.length = 17 := by
    simp only [List.length_append, List.length_cons] at hlen
    omega
  rw [Imp_parse_open _ (notUrn_append_dash g0 _ hg0) (Or.inl hlen)]
  obtain ⟨a1, b1, hr1⟩ := scan_hexRun g0 _ 0 0 0 0 (List.replicate 16 0)
    ('-' :: (g1 ++ '-' :: (g2 ++ '-' :: t))) hg0 (by omega)
  rw [hr1, h8]
  simp only [Nat.zero_add]
  rw [scan_dash8]
  obtain ⟨a2, b2, hr2⟩ := scan_hexRun g1 _ (8 + 1) 8 1 a1 b1
    ('-' :: (g2 ++ '-' :: t)) hg1 (by omega)
  rw [hr2, h4]
  norm_num
  rw [scan_dash12]
  obtain ⟨a3, b3, hr3⟩ := scan_hexRun g2 _ (8 + 1 + 4 + 1) 12 2 a2 b2
    ('-' :: t) hg2 (by omega)
  rw [hr3, h4b]
  norm_num
  rw [scan_dash16]
  conv_lhs => rw [← List.append_nil t]
  exact scan_hexRun_overflow t _ _ 16 3 a3 b3 [] ht (by omega) (by omega)
    (by decide) (by decide)

/-- C4 amended: for a 36-character stripped input made of hex digits and
hyphens, if the hyphens partition it into 2, 3 or 4 groups with every group
before the last having exactly its required length (8, 4, 4) — so that the
scanner accepts each separator — parse fails with `InvalidGroupCount`
carrying the actual group count; a 36-character hex input with no hyphens at
all (group count 1) instead fails with `InvalidLength found: 36`, not
`InvalidGroupCount found: 1`.  (When an earlier group has the wrong length,
the group-length error at its separator preempts the count error, as in the
C6 correction.) -/
theorem claim_C4_amended :
    (∀ s : String, s.data.length = 36 → (∀ c ∈ s.data, (hexVal c).isSome) →
      Uuid.parse_str s = .error ⟨.InvalidLength (.Any [36, 32]) 36⟩) ∧
    (∀ g0 t : List Char, (∀ c ∈ g0, (hexVal c).isSome) → g0.length = 8 →
      (∀ c ∈ t, (hexVal c).isSome) → (g0 ++ '-' :: t).length = 36 →
      Uuid.parse_str ⟨g0 ++ '-' :: t⟩ =
        .error ⟨.InvalidGroupCount (.Any [1, 5]) 2⟩) ∧
    (∀ g0 g1 t : List Char, (∀ c ∈ g0, (hexVal c).isSome) → g0.length = 8 →
      (∀ c ∈ g1, (hexVal c).isSome) → g1.length = 4 →
      (∀ c ∈ t, (hexVal c).isSome) →
      (g0 ++ '-' :: (g1 ++ '-' :: t)).length = 36 →
      Uuid.parse_str ⟨g0 ++ '-' :: (g1 ++ '-' :: t)⟩ =
        .error ⟨.InvalidGroupCount (.Any [1, 5]) 3⟩) ∧
    (∀ g0 g1 g2 t : List Char, (∀ c ∈ g0, (hexVal c).isSome) →
      g0.length = 8 → (∀ c ∈ g1, (hexVal c).isSome) → g1.length = 4 →
      (∀ c ∈ g2, (hexVal c).isSome) → g2.length = 4 →
      (∀ c ∈ t, (hexVal c).isSome) →
      (g0 ++ '-' :: (g1 ++ '-' :: (g2 ++ '-' :: t))).length = 36 →
      Uuid.parse_str ⟨g0 ++ '-' :: (g1 ++ '-' :: (g2 ++ '-' :: t))⟩ =
        .error ⟨.InvalidGroupCount (.Any [1, 5]) 4⟩) := by
  refine ⟨fun s hlen hhex => ?_, fun g0 t hg0 h8 ht hlen => ?_,
    fun g0 g1 t hg0 h8 hg1 h4 ht hlen => ?_,
    fun g0 g1 g2 t hg0 h8 hg1 h4 hg2 h4b ht hlen => ?_⟩
  · have h := Imp_nohyphen_hex36 s.data hlen hhex
    simp [Uuid.parse_str, h, Except.map]
  · have h := Imp_groupCount2 g0 t hg0 h8 ht hlen
    simp [Uuid.parse_str, h, Except.map]
  · have h := Imp_groupCount3 g0 g1 t hg0 h8 hg1 h4 ht hlen
    simp [Uuid.parse_str, h, Except.map]
  · have h := Imp_groupCount4 g0 g1 g2 t hg0 h8 hg1 h4 hg2 h4b ht hlen
    simp [Uuid.parse_str, h, Except.map]

/-- Witness for C4 amended: the pinned two-group test input
F9168C5E-CEB2F4faaFB6BFF329BF39FA1E4 decomposed into its groups, and the
pinned no-hyphen input. -/
theorem claim_C4_amended_witness :
    "F9168C5E".data.length = 8 ∧
    Uuid.parse_str
        ⟨"F9168C5E".data ++ '-' :: "CEB2F4faaFB6BFF329BF39FA1E4".data⟩ =
      .error ⟨.InvalidGroupCount (.Any [1, 5]) 2⟩ ∧
    Uuid.parse_str "231231212212423424324323477343246663" =
      .error ⟨.InvalidLength (.Any [36, 32]) 36⟩ :=
  ⟨by decide,
    claim_C4_amended.2.1 "F9168C5E".data "CEB2F4faaFB6BFF329BF39FA1E4".data
      (by decide) (by decide) (by decide) (by decide),
    claim_C4_amended.1 "231231212212423424324323477343246663" (by decide)
      (by decide)⟩

end UuidSpec
